import Mathlib

/-
  Verification development for the AquesTalk TTS command-line driver
  (src/tools/aquestalk_tts_cmd/AquesTalkTtsCmd.cpp).

  The pure helpers (trim, split_lines, use_sjis, the speed clamp) are
  translated directly from the source.  The foreign components
  (AqKanji2Koe, AquesTalk, the filesystem and the Win32 loader) are
  modelled as oracles inside a World record, and main is embedded as a
  function from a World and a parsed configuration to a RunResult that
  records the exit code, the halt site, the sequence of foreign calls
  made, the diagnostic path list of the missing-SDK branch, the
  assembled phoneme stream and whether the output file was written.
-/

namespace AqTts

/-- Character class used by trim in AquesTalkTtsCmd.cpp (space, tab,
carriage return, line feed). -/
def is_space (c : Char) : Bool :=
  c = ' ' || c = '\t' || c = '\r' || c = '\n'

/-- List-level body of trim: erase leading whitespace, then trailing
whitespace, exactly as the two loops of trim in the source. -/
def trimList (l : List Char) : List Char :=
  ((l.dropWhile is_space).reverse.dropWhile is_space).reverse

/-- trim from AquesTalkTtsCmd.cpp: strips leading and trailing
space, tab, carriage return and line feed characters. -/
def trim (s : String) : String :=
  ⟨trimList s.data⟩

/-- Accumulator loop of split_lines: out is the vector already pushed,
cur the line being built; carriage returns are skipped, a line feed
pushes cur, any other character is appended to cur.  The final
out.push_back(cur) of the source is the base case. -/
def splitLinesGo (out : List String) (cur : List Char) : List Char → List String
  | [] => out ++ [⟨cur⟩]
  | c :: cs =>
    if c = '\r' then splitLinesGo out cur cs
    else if c = '\n' then splitLinesGo (out ++ [⟨cur⟩]) [] cs
    else splitLinesGo out (cur ++ [c]) cs

/-- split_lines from AquesTalkTtsCmd.cpp. -/
def split_lines (s : String) : List String :=
  splitLinesGo [] [] s.data

/-- Encoding selection of main (line 225): the legacy code path is taken
exactly for the strings sjis, shiftjis and cp932. -/
def use_sjis (encoding : String) : Bool :=
  encoding = "sjis" || encoding = "shiftjis" || encoding = "cp932"

/-- Speed clamping of main (lines 235 to 236): two sequential range
corrections, first to at least 50, then to at most 300. -/
def clampSpeed (s : Int) : Int :=
  if s < 50 then 50 else if s > 300 then 300 else s

/-! ## Dynamic capability loaders -/

/-- Resolution state of the five AqKanji2Koe entry points; a field is
true when GetProcAddress returned a non-null pointer for it. -/
structure AqKanji2KoeApi where
  Create : Bool
  Release : Bool
  ConvertUtf8 : Bool
  ConvertSjis : Bool
  SetDevKey : Bool
deriving DecidableEq

/-- Resolution state of the five AquesTalk entry points. -/
structure AquesTalkApi where
  Synthe : Bool
  SyntheUtf8 : Bool
  FreeWave : Bool
  SetDevKey : Bool
  SetUsrKey : Bool
deriving DecidableEq

/-- Oracle for one LoadLibraryW plus GetProcAddress session: loadOk
says whether the library loads, sym whether a given symbol resolves. -/
structure DllWorld where
  loadOk : Bool
  sym : String → Bool

/-- load_kanji2koe from AquesTalkTtsCmd.cpp.  The second component of
the result is true exactly when FreeLibrary was called on the module. -/
def load_kanji2koe (w : DllWorld) : Option AqKanji2KoeApi × Bool :=
  if w.loadOk then
    let api : AqKanji2KoeApi :=
      { Create := w.sym "AqKanji2Koe_Create"
        Release := w.sym "AqKanji2Koe_Release"
        ConvertUtf8 := w.sym "AqKanji2Koe_Convert_utf8"
        ConvertSjis := w.sym "AqKanji2Koe_Convert_sjis"
        SetDevKey := w.sym "AqKanji2Koe_SetDevKey" }
    if api.Create && api.Release && api.ConvertUtf8 && api.ConvertSjis && api.SetDevKey then
      (some api, false)
    else
      (none, true)
  else
    (none, false)

/-- load_aquestalk from AquesTalkTtsCmd.cpp; same shape as
load_kanji2koe over the AquesTalk entry points. -/
def load_aquestalk (w : DllWorld) : Option AquesTalkApi × Bool :=
  if w.loadOk then
    let api : AquesTalkApi :=
      { Synthe := w.sym "AquesTalk_Synthe"
        SyntheUtf8 := w.sym "AquesTalk_Synthe_Utf8"
        FreeWave := w.sym "AquesTalk_FreeWave"
        SetDevKey := w.sym "AquesTalk_SetDevKey"
        SetUsrKey := w.sym "AquesTalk_SetUsrKey" }
    if api.Synthe && api.SyntheUtf8 && api.FreeWave && api.SetDevKey && api.SetUsrKey then
      (some api, false)
    else
      (none, true)
  else
    (none, false)

/-! ## Pipeline driver -/

/-- Identifiers for the three pre-flight SDK paths checked by main
(k2k_dll, k2k_dic, tk_dll). -/
inductive PathId
  | k2kDll
  | k2kDic
  | tkDll
deriving DecidableEq

/-- Foreign calls made by main, in program order. -/
inductive Ev
  | loadK2K
  | loadTK
  | k2kSetDevKey
  | tkSetDevKey
  | tkSetUsrKey
  | createCall
  | convertCall (i : Nat) (line : String)
  | releaseCall
  | syntheCall (koe : String) (speed : Int)
  | freeWaveCall
  | writeCall
deriving DecidableEq

/-- Site at which main returned. -/
inductive Halt
  | missingSdk
  | loadK2KFail
  | loadTKFail
  | createFail
  | noInput
  | convertFail
  | emptyKoe
  | synthFail
  | writeFail
  | success
deriving DecidableEq

/-- Observable outcome of one run of main. -/
structure RunResult where
  exitCode : Nat
  halt : Halt
  events : List Ev
  missingDiag : List PathId
  assembledKoe : String
  wroteOutput : Bool
deriving DecidableEq

/-- Environment of one run: filesystem existence of the three SDK
paths, outcomes of the two library loads, of AqKanji2Koe_Create, the
text on standard input, the conversion oracles (argument Nat is the
index of the convert call in this run, the returned pair is the return
code and the buffer content), the two synthesis oracles (the returned
pair is whether the wave pointer is non-null, and the size written),
and whether the output stream opens. -/
structure World where
  k2kDllExists : Bool
  k2kDicExists : Bool
  tkDllExists : Bool
  k2kLoadOk : Bool
  tkLoadOk : Bool
  createOk : Bool
  stdinText : String
  convertUtf8 : Nat → String → Int × String
  convertSjis : Nat → String → Int × String
  synthe : String → Int → Bool × Int
  syntheUtf8 : String → Int → Bool × Int
  writeOk : Bool

/-- Parsed command-line configuration as main has it after argument
handling (speed still unclamped, as produced by std::stoi). -/
structure Config where
  encoding : String
  speed : Int
  devKey : String
  usrKey : String

/-- Per-line conversion loop of main (lines 312 to 333): trims each raw
line, skips empty ones, calls the conversion oracle on the rest, fails
on a non-zero return code, trims the buffer content, skips empty
results and joins the rest onto the accumulator with a slash.  Returns
the convert-call events and either the failing return code or the final
accumulator. -/
def processLines (conv : Nat → String → Int × String) :
    Nat → String → List String → List Ev × Except Int String
  | _, koeAll, [] => ([], Except.ok koeAll)
  | i, koeAll, lineRaw :: rest =>
    let line := trim lineRaw
    if line = "" then processLines conv i koeAll rest
    else
      let r := conv i line
      if r.1 ≠ 0 then ([Ev.convertCall i line], Except.error r.1)
      else
        let koePart := trim r.2
        let koeAll' :=
          if koePart = "" then koeAll
          else if koeAll = "" then koePart
          else koeAll ++ "/" ++ koePart
        let next := processLines conv (i + 1) koeAll' rest
        (Ev.convertCall i line :: next.1, next.2)

/-- Foreign calls made between the two successful loads and the return
of AqKanji2Koe_Create: the optional key registrations of lines 286 to
292, then the Create call of line 296. -/
def preEvents (devKey usrKey : String) : List Ev :=
  [Ev.loadK2K, Ev.loadTK]
    ++ (if devKey ≠ "" then [Ev.k2kSetDevKey, Ev.tkSetDevKey] else [])
    ++ (if usrKey ≠ "" then [Ev.tkSetUsrKey] else [])
    ++ [Ev.createCall]

/-- Tail of main after AqKanji2Koe_Create succeeded (source lines 302
to 371): read and trim stdin, bail out on empty input, run the
conversion loop, release the session, then synthesize, write and free
the wave.  pre is the event history up to and including Create. -/
def afterCreate (w : World) (useSjis : Bool) (speed : Int) (pre : List Ev) : RunResult :=
  let input := trim w.stdinText
  if input = "" then
    { exitCode := 2, halt := .noInput, events := pre ++ [Ev.releaseCall],
      missingDiag := [], assembledKoe := "", wroteOutput := false }
  else
    let conv := if useSjis then w.convertSjis else w.convertUtf8
    let res := processLines conv 0 "" (split_lines input)
    match res.2 with
    | Except.error _ =>
      { exitCode := 4, halt := .convertFail, events := pre ++ res.1 ++ [Ev.releaseCall],
        missingDiag := [], assembledKoe := "", wroteOutput := false }
    | Except.ok koeAll =>
      let evs := pre ++ res.1 ++ [Ev.releaseCall]
      if koeAll = "" then
        { exitCode := 4, halt := .emptyKoe, events := evs,
          missingDiag := [], assembledKoe := koeAll, wroteOutput := false }
      else
        let sfn := if useSjis then w.synthe else w.syntheUtf8
        let sres := sfn koeAll speed
        let evs2 := evs ++ [Ev.syntheCall koeAll speed]
        if !sres.1 || sres.2 ≤ 0 then
          { exitCode := 5, halt := .synthFail, events := evs2,
            missingDiag := [], assembledKoe := koeAll, wroteOutput := false }
        else if !w.writeOk then
          { exitCode := 6, halt := .writeFail, events := evs2 ++ [Ev.freeWaveCall],
            missingDiag := [], assembledKoe := koeAll, wroteOutput := false }
        else
          { exitCode := 0, halt := .success,
            events := evs2 ++ [Ev.writeCall, Ev.freeWaveCall],
            missingDiag := [], assembledKoe := koeAll, wroteOutput := true }

/-- Body of main after argument parsing, over the already computed
encoding flag, clamped speed and license keys; follows the source from
the pre-flight existence check (line 266) to the final return. -/
def runCore (w : World) (useSjis : Bool) (speed : Int) (devKey usrKey : String) : RunResult :=
  if !(w.k2kDllExists && w.k2kDicExists && w.tkDllExists) then
    { exitCode := 2, halt := .missingSdk, events := [],
      missingDiag := [.k2kDll, .k2kDic, .tkDll], assembledKoe := "", wroteOutput := false }
  else if !w.k2kLoadOk then
    { exitCode := 3, halt := .loadK2KFail, events := [.loadK2K],
      missingDiag := [], assembledKoe := "", wroteOutput := false }
  else if !w.tkLoadOk then
    { exitCode := 3, halt := .loadTKFail, events := [.loadK2K, .loadTK],
      missingDiag := [], assembledKoe := "", wroteOutput := false }
  else if !w.createOk then
    { exitCode := 4, halt := .createFail, events := preEvents devKey usrKey,
      missingDiag := [], assembledKoe := "", wroteOutput := false }
  else
    afterCreate w useSjis speed (preEvents devKey usrKey)

/-- main from AquesTalkTtsCmd.cpp over an environment and a parsed
configuration: computes the encoding flag (line 225) and the clamped
speed (lines 235 to 236), then runs the pipeline body. -/
def runMain (w : World) (cfg : Config) : RunResult :=
  runCore w (use_sjis cfg.encoding) (clampSpeed cfg.speed) cfg.devKey cfg.usrKey

/-! ## Specification helpers -/

/-- Count of pause separators in a string. -/
def countSlash (s : String) : Nat :=
  s.data.count '/'

/-- Parts that the conversion loop keeps: the trimmed, non-empty
conversion results of the trimmed, non-empty input lines, in order,
with the convert-call index threaded exactly as in processLines. -/
def convertedParts (conv : Nat → String → Int × String) :
    Nat → List String → List String
  | _, [] => []
  | i, lineRaw :: rest =>
    let line := trim lineRaw
    if line = "" then convertedParts conv i rest
    else
      let koePart := trim (conv i line).2
      if koePart = "" then convertedParts conv (i + 1) rest
      else koePart :: convertedParts conv (i + 1) rest

/-- Joining a list of parts with single slash separators. -/
def joinSlash : List String → String
  | [] => ""
  | p :: ps => ps.foldl (fun acc q => acc ++ "/" ++ q) p

/-- Exit code attached by the source to each halt site. -/
def exitOf : Halt → Nat
  | .missingSdk => 2
  | .loadK2KFail => 3
  | .loadTKFail => 3
  | .createFail => 4
  | .noInput => 2
  | .convertFail => 4
  | .emptyKoe => 4
  | .synthFail => 5
  | .writeFail => 6
  | .success => 0

/-! ## Concrete environments used to instantiate the theorems -/

/-- Environment in which everything succeeds: all SDK paths exist, both
loads and Create succeed, each line converts to itself, synthesis
returns a non-null ten-byte wave, and the output file opens. -/
def okWorld : World :=
  { k2kDllExists := true, k2kDicExists := true, tkDllExists := true
    k2kLoadOk := true, tkLoadOk := true, createOk := true
    stdinText := "ab\n\ncd"
    convertUtf8 := fun _ l => (0, l)
    convertSjis := fun _ l => (0, l)
    synthe := fun _ _ => (true, 10)
    syntheUtf8 := fun _ _ => (true, 10)
    writeOk := true }

/-- Default configuration: UTF-8 encoding, speed 100, no license keys. -/
def okConfig : Config :=
  { encoding := "utf8", speed := 100, devKey := "", usrKey := "" }

/-- Environment whose standard input consists only of whitespace lines. -/
def blankWorld : World :=
  { okWorld with stdinText := " \n\t\n" }

/-- Environment with non-blank input but a converter whose output trims
to the empty string on every line. -/
def emptyConvWorld : World :=
  { okWorld with stdinText := "abc", convertUtf8 := fun _ _ => (0, " ") }

/-- Environment whose standard input is completely empty. -/
def emptyStdinWorld : World :=
  { okWorld with stdinText := "" }

/-- Environment whose synthesizer returns a non-null wave pointer with
size zero. -/
def zeroSizeWorld : World :=
  { okWorld with synthe := fun _ _ => (true, 0), syntheUtf8 := fun _ _ => (true, 0) }

/-- Environment in which the dictionary directory is missing while both
shared libraries exist. -/
def missingDicWorld : World :=
  { okWorld with k2kDicExists := false }

/-- Environment whose second conversion call fails with component error
code 100. -/
def convFailWorld : World :=
  { okWorld with convertUtf8 := fun i l => (if i = 1 then 100 else 0, l) }

/-! ## Basic string lemmas -/

theorem data_ext {a b : String} (h : a.data = b.data) : a = b := by
  cases a; cases b; simp_all

theorem eq_empty_iff_data (a : String) : a = "" ↔ a.data = [] := by
  constructor
  · intro h; rw [h]
  · intro h; exact data_ext (by rw [h])

theorem append_ne_empty_left {a : String} (b : String) (h : a ≠ "") : a ++ b ≠ "" := by
  intro hab
  apply h
  rw [eq_empty_iff_data] at hab ⊢
  rw [String.data_append] at hab
  exact (List.append_eq_nil.mp hab).1

theorem dropWhile_forall {p : Char → Bool} {l : List Char}
    (h : ∀ x ∈ l.dropWhile p, p x) : ∀ x ∈ l, p x := by
  intro x hx
  rcases List.mem_append.mp (by rw [List.takeWhile_append_dropWhile p l]; exact hx) with
    h1 | h2
  · exact List.mem_takeWhile_imp h1
  · exact h x h2

theorem trim_eq_empty_iff (s : String) :
    trim s = "" ↔ ∀ c ∈ s.data, is_space c := by
  rw [eq_empty_iff_data]
  show trimList s.data = [] ↔ _
  unfold trimList
  rw [List.reverse_eq_nil_iff, List.dropWhile_eq_nil_iff]
  constructor
  · intro h
    apply dropWhile_forall
    intro x hx
    exact h x (List.mem_reverse.mpr hx)
  · intro h x hx
    exact h x ((List.dropWhile_sublist is_space).mem (List.mem_reverse.mp hx))

/-! ## split_lines lemmas -/

theorem splitLinesGo_nil (out : List String) (cur : List Char) :
    splitLinesGo out cur [] = out ++ [⟨cur⟩] := rfl

theorem splitLinesGo_cr (out : List String) (cur cs : List Char) :
    splitLinesGo out cur ('\r' :: cs) = splitLinesGo out cur cs := by
  simp [splitLinesGo]

theorem splitLinesGo_nl (out : List String) (cur cs : List Char) :
    splitLinesGo out cur ('\n' :: cs) = splitLinesGo (out ++ [⟨cur⟩]) [] cs := by
  simp [splitLinesGo]

theorem splitLinesGo_char (out : List String) (cur cs : List Char) {c : Char}
    (hr : c ≠ '\r') (hn : c ≠ '\n') :
    splitLinesGo out cur (c :: cs) = splitLinesGo out (cur ++ [c]) cs := by
  simp only [splitLinesGo]
  rw [if_neg hr, if_neg hn]

theorem splitLinesGo_append (cs : List Char) :
    ∀ out cur, splitLinesGo out cur cs = out ++ splitLinesGo [] cur cs := by
  induction cs with
  | nil => intro out cur; simp [splitLinesGo_nil]
  | cons c cs ih =>
    intro out cur
    by_cases hr : c = '\r'
    · subst hr; rw [splitLinesGo_cr, splitLinesGo_cr]; exact ih out cur
    · by_cases hn : c = '\n'
      · subst hn
        rw [splitLinesGo_nl, splitLinesGo_nl, List.nil_append,
          ih (out ++ [String.mk cur]) [], ih [String.mk cur] []]
        simp
      · rw [splitLinesGo_char out cur cs hr hn, splitLinesGo_char [] cur cs hr hn]
        exact ih out (cur ++ [c])

theorem splitLinesGo_length (cs : List Char) :
    ∀ out cur, 1 ≤ (splitLinesGo out cur cs).length := by
  induction cs with
  | nil => intro out cur; simp [splitLinesGo_nil]
  | cons c cs ih =>
    intro out cur
    by_cases hr : c = '\r'
    · subst hr; rw [splitLinesGo_cr]; exact ih out cur
    · by_cases hn : c = '\n'
      · subst hn; rw [splitLinesGo_nl]; exact ih (out ++ [⟨cur⟩]) []
      · rw [splitLinesGo_char out cur cs hr hn]; exact ih out (cur ++ [c])

theorem splitLinesGo_no_crlf (cs : List Char) :
    ∀ out cur, (∀ l ∈ out, ∀ c ∈ l.data, c ≠ '\n' ∧ c ≠ '\r') →
      (∀ c ∈ cur, c ≠ '\n' ∧ c ≠ '\r') →
      ∀ l ∈ splitLinesGo out cur cs, ∀ c ∈ l.data, c ≠ '\n' ∧ c ≠ '\r' := by
  induction cs with
  | nil =>
    intro out cur hout hcur l hl
    rw [splitLinesGo_nil] at hl
    rcases List.mem_append.mp hl with h1 | h2
    · exact hout l h1
    · rcases List.mem_singleton.mp h2 with rfl
      intro c hc
      exact hcur c hc
  | cons c cs ih =>
    intro out cur hout hcur l hl
    by_cases hr : c = '\r'
    · subst hr; rw [splitLinesGo_cr] at hl; exact ih out cur hout hcur l hl
    · by_cases hn : c = '\n'
      · subst hn
        rw [splitLinesGo_nl] at hl
        refine ih (out ++ [⟨cur⟩]) [] ?_ (by simp) l hl
        intro l0 hl0
        rcases List.mem_append.mp hl0 with h1 | h2
        · exact hout l0 h1
        · rcases List.mem_singleton.mp h2 with rfl
          intro c0 hc0
          exact hcur c0 hc0
      · rw [splitLinesGo_char out cur cs hr hn] at hl
        refine ih out (cur ++ [c]) hout ?_ l hl
        intro c0 hc0
        rcases List.mem_append.mp hc0 with h1 | h2
        · exact hcur c0 h1
        · rcases List.mem_singleton.mp h2 with rfl
          exact ⟨hn, hr⟩

theorem splitLinesGo_filter_cr (cs : List Char) :
    ∀ out cur,
      splitLinesGo out cur (cs.filter (fun c => c ≠ '\r')) = splitLinesGo out cur cs := by
  induction cs with
  | nil => intro out cur; rfl
  | cons c cs ih =>
    intro out cur
    rw [List.filter_cons]
    by_cases hr : c = '\r'
    · rw [if_neg (by simp [hr]), ih, hr, splitLinesGo_cr]
    · rw [if_pos (by simp [hr])]
      by_cases hn : c = '\n'
      · subst hn; rw [splitLinesGo_nl, splitLinesGo_nl]; exact ih (out ++ [⟨cur⟩]) []
      · rw [splitLinesGo_char out cur _ hr hn, splitLinesGo_char out cur cs hr hn]
        exact ih out (cur ++ [c])

theorem splitLinesGo_mem_cur (cs : List Char) :
    ∀ out cur, ∀ c ∈ cur, ∃ l ∈ splitLinesGo out cur cs, c ∈ l.data := by
  induction cs with
  | nil =>
    intro out cur c hc
    exact ⟨⟨cur⟩, by simp [splitLinesGo_nil], hc⟩
  | cons c0 cs ih =>
    intro out cur c hc
    by_cases hr : c0 = '\r'
    · subst hr; rw [splitLinesGo_cr]; exact ih out cur c hc
    · by_cases hn : c0 = '\n'
      · subst hn
        rw [splitLinesGo_nl, splitLinesGo_append cs (out ++ [String.mk cur]) []]
        exact ⟨⟨cur⟩, by simp, hc⟩
      · rw [splitLinesGo_char out cur cs hr hn]
        exact ih out (cur ++ [c0]) c (List.mem_append.mpr (Or.inl hc))

theorem splitLinesGo_mem_rest (cs : List Char) :
    ∀ out cur, ∀ c ∈ cs, c ≠ '\n' → c ≠ '\r' →
      ∃ l ∈ splitLinesGo out cur cs, c ∈ l.data := by
  induction cs with
  | nil => intro _ _ c hc; exact absurd hc (List.not_mem_nil c)
  | cons c0 cs ih =>
    intro out cur c hc hn hr
    rcases List.mem_cons.mp hc with rfl | hmem
    · rw [splitLinesGo_char out cur cs hr hn]
      exact splitLinesGo_mem_cur cs out (cur ++ [c]) c (by simp)
    · by_cases hr0 : c0 = '\r'
      · subst hr0; rw [splitLinesGo_cr]; exact ih out cur c hmem hn hr
      · by_cases hn0 : c0 = '\n'
        · subst hn0; rw [splitLinesGo_nl]; exact ih (out ++ [⟨cur⟩]) [] c hmem hn hr
        · rw [splitLinesGo_char out cur cs hr0 hn0]
          exact ih out (cur ++ [c0]) c hmem hn hr

/-! ## Join and separator-count lemmas -/

theorem foldl_join_of_ne_empty (ps : List String) :
    ∀ a, a ≠ "" →
      ps.foldl (fun acc q => if acc = "" then q else acc ++ "/" ++ q) a
        = ps.foldl (fun acc q => acc ++ "/" ++ q) a := by
  induction ps with
  | nil => intro a _; rfl
  | cons p ps ih =>
    intro a ha
    simp only [List.foldl_cons]
    rw [if_neg ha]
    exact ih _ (append_ne_empty_left p (append_ne_empty_left "/" ha))

theorem foldl_plain_ne_empty (ps : List String) :
    ∀ a, a ≠ "" → ps.foldl (fun acc q => acc ++ "/" ++ q) a ≠ "" := by
  induction ps with
  | nil => intro a ha; exact ha
  | cons p ps ih =>
    intro a ha
    simp only [List.foldl_cons]
    exact ih _ (append_ne_empty_left p (append_ne_empty_left "/" ha))

theorem foldl_join_empty_start (ps : List String) (h : ∀ p ∈ ps, p ≠ "") :
    ps.foldl (fun acc q => if acc = "" then q else acc ++ "/" ++ q) "" = joinSlash ps := by
  cases ps with
  | nil => rfl
  | cons p ps =>
    simp only [List.foldl_cons, if_pos rfl, joinSlash]
    exact foldl_join_of_ne_empty ps p (h p (List.mem_cons_self p ps))

theorem joinSlash_ne_empty (ps : List String) (h : ∀ p ∈ ps, p ≠ "") (hne : ps ≠ []) :
    joinSlash ps ≠ "" := by
  cases ps with
  | nil => exact absurd rfl hne
  | cons p ps =>
    simp only [joinSlash]
    exact foldl_plain_ne_empty ps p (h p (List.mem_cons_self p ps))

theorem countSlash_append (a b : String) :
    countSlash (a ++ b) = countSlash a + countSlash b := by
  simp [countSlash, String.data_append, List.count_append]

theorem countSlash_foldl_plain (ps : List String) :
    ∀ p, countSlash (ps.foldl (fun acc q => acc ++ "/" ++ q) p)
      = countSlash p + (ps.map countSlash).sum + ps.length := by
  induction ps with
  | nil => intro p; simp
  | cons q ps ih =>
    intro p
    simp only [List.foldl_cons]
    rw [ih (p ++ "/" ++ q)]
    rw [countSlash_append, countSlash_append]
    have hone : countSlash "/" = 1 := by decide
    simp [hone, List.map_cons, List.sum_cons]
    omega

theorem countSlash_joinSlash (p : String) (ps : List String)
    (h : ∀ q ∈ p :: ps, countSlash q = 0) :
    countSlash (joinSlash (p :: ps)) = ps.length := by
  simp only [joinSlash]
  rw [countSlash_foldl_plain ps p]
  have hp : countSlash p = 0 := h p (List.mem_cons_self p ps)
  have hsum : (ps.map countSlash).sum = 0 := by
    apply List.sum_eq_zero
    intro x hx
    obtain ⟨q, hq, rfl⟩ := List.mem_map.mp hx
    exact h q (List.mem_cons_of_mem p hq)
  omega

/-! ## Conversion loop lemmas -/

theorem convertedParts_ne_empty (conv : Nat → String → Int × String) :
    ∀ ls i, ∀ p ∈ convertedParts conv i ls, p ≠ "" := by
  intro ls
  induction ls with
  | nil => intro i p hp; exact absurd hp (List.not_mem_nil p)
  | cons lineRaw rest ih =>
    intro i p hp
    by_cases hline : trim lineRaw = ""
    · exact ih i p (by simpa [convertedParts, hline] using hp)
    · by_cases hpart : trim (conv i (trim lineRaw)).2 = ""
      · exact ih (i + 1) p (by simpa [convertedParts, hline, hpart] using hp)
      · rcases List.mem_cons.mp (by simpa [convertedParts, hline, hpart] using hp) with
          rfl | hmem
        · exact hpart
        · exact ih (i + 1) p hmem

theorem processLines_ok (conv : Nat → String → Int × String)
    (hconv : ∀ i l, (conv i l).1 = 0) :
    ∀ ls i a, (processLines conv i a ls).2 =
      Except.ok ((convertedParts conv i ls).foldl
        (fun acc q => if acc = "" then q else acc ++ "/" ++ q) a) := by
  intro ls
  induction ls with
  | nil => intro i a; rfl
  | cons lineRaw rest ih =>
    intro i a
    by_cases hline : trim lineRaw = ""
    · simp only [processLines, convertedParts, hline, if_pos rfl, ite_true]
      exact ih i a
    · simp only [processLines, convertedParts, hline, ite_false, if_neg hline]
      rw [if_neg (by simp [hconv i (trim lineRaw)])]
      by_cases hpart : trim (conv i (trim lineRaw)).2 = ""
      · simp only [hpart, if_pos rfl, ite_true]
        exact ih (i + 1) a
      · simp only [hpart, ite_false, if_neg hpart, List.foldl_cons]
        exact ih (i + 1) _

theorem processLines_events (conv : Nat → String → Int × String) :
    ∀ ls i a, ∀ e ∈ (processLines conv i a ls).1, ∃ j s, e = Ev.convertCall j s := by
  intro ls
  induction ls with
  | nil => intro i a e he; exact absurd he (List.not_mem_nil e)
  | cons lineRaw rest ih =>
    intro i a e he
    by_cases hline : trim lineRaw = ""
    · exact ih i a e (by simpa [processLines, hline] using he)
    · by_cases hrc : (conv i (trim lineRaw)).1 ≠ 0
      · have : e ∈ [Ev.convertCall i (trim lineRaw)] := by
          simpa [processLines, hline, if_pos hrc] using he
        exact ⟨i, trim lineRaw, List.mem_singleton.mp this⟩
      · have he' : e = Ev.convertCall i (trim lineRaw)
            ∨ e ∈ (processLines conv (i + 1)
              (if trim (conv i (trim lineRaw)).2 = "" then a
               else if a = "" then trim (conv i (trim lineRaw)).2
               else a ++ "/" ++ trim (conv i (trim lineRaw)).2) rest).1 := by
          simpa [processLines, hline, if_neg hrc] using he
        rcases he' with rfl | hmem
        · exact ⟨i, trim lineRaw, rfl⟩
        · exact ih (i + 1) _ e hmem

/-! ## Driver branch lemmas -/

theorem preEvents_mem_create (d k : String) : Ev.createCall ∈ preEvents d k := by
  unfold preEvents
  split_ifs <;> decide

theorem preEvents_not_release (d k : String) : Ev.releaseCall ∉ preEvents d k := by
  unfold preEvents
  split_ifs <;> decide

theorem preEvents_not_synthe (d k ko : String) (sp : Int) :
    Ev.syntheCall ko sp ∉ preEvents d k := by
  unfold preEvents
  split_ifs <;> simp

theorem count_release_eq_zero_of_convert (l : List Ev)
    (h : ∀ e ∈ l, ∃ j s, e = Ev.convertCall j s) : l.count Ev.releaseCall = 0 := by
  rw [List.count_eq_zero]
  intro hmem
  obtain ⟨j, s, hj⟩ := h _ hmem
  exact absurd hj (by simp)

theorem runCore_reach (w : World) (u : Bool) (s : Int) (d k : String)
    (h1 : w.k2kDllExists = true) (h2 : w.k2kDicExists = true) (h3 : w.tkDllExists = true)
    (h4 : w.k2kLoadOk = true) (h5 : w.tkLoadOk = true) (h6 : w.createOk = true) :
    runCore w u s d k = afterCreate w u s (preEvents d k) := by
  simp [runCore, h1, h2, h3, h4, h5, h6]

theorem runCore_missingSdk (w : World) (u : Bool) (s : Int) (d k : String)
    (hmiss : (w.k2kDllExists && w.k2kDicExists && w.tkDllExists) = false) :
    runCore w u s d k =
      { exitCode := 2, halt := .missingSdk, events := [],
        missingDiag := [.k2kDll, .k2kDic, .tkDll], assembledKoe := "",
        wroteOutput := false } := by
  simp [runCore, hmiss]

theorem afterCreate_noInput (w : World) (u : Bool) (s : Int) (pre : List Ev)
    (hin : trim w.stdinText = "") :
    afterCreate w u s pre =
      { exitCode := 2, halt := .noInput, events := pre ++ [Ev.releaseCall],
        missingDiag := [], assembledKoe := "", wroteOutput := false } := by
  simp [afterCreate, hin]

theorem runCore_exit_eq (w : World) (u : Bool) (s : Int) (d k : String) :
    (runCore w u s d k).exitCode = exitOf (runCore w u s d k).halt := by
  unfold runCore afterCreate
  dsimp only
  repeat' split
  all_goals rfl

theorem afterCreate_count_release (w : World) (u : Bool) (s : Int) (pre : List Ev) :
    (afterCreate w u s pre).events.count Ev.releaseCall
      = pre.count Ev.releaseCall + 1 := by
  unfold afterCreate
  dsimp only
  generalize (if u = true then w.convertSjis else w.convertUtf8) = conv
  generalize (if u = true then w.synthe else w.syntheUtf8) = sfn
  have hproc : ∀ a, ((processLines conv 0 a
      (split_lines (trim w.stdinText))).1).count Ev.releaseCall = 0 :=
    fun a => count_release_eq_zero_of_convert _ (processLines_events conv _ 0 a)
  repeat' split
  all_goals simp [List.count_append, List.count_cons, hproc ""]

theorem afterCreate_convertFail (w : World) (u : Bool) (s : Int) (pre : List Ev)
    (hin : trim w.stdinText ≠ "") (rc : Int)
    (herr : (processLines (if u = true then w.convertSjis else w.convertUtf8) 0 ""
      (split_lines (trim w.stdinText))).2 = Except.error rc) :
    afterCreate w u s pre =
      { exitCode := 4, halt := .convertFail,
        events := pre ++ (processLines (if u = true then w.convertSjis else w.convertUtf8) 0 ""
          (split_lines (trim w.stdinText))).1 ++ [Ev.releaseCall],
        missingDiag := [], assembledKoe := "", wroteOutput := false } := by
  unfold afterCreate
  dsimp only
  rw [if_neg hin]
  simp only [herr]

theorem afterCreate_emptyKoe (w : World) (u : Bool) (s : Int) (pre : List Ev)
    (hin : trim w.stdinText ≠ "")
    (hok : (processLines (if u = true then w.convertSjis else w.convertUtf8) 0 ""
      (split_lines (trim w.stdinText))).2 = Except.ok "") :
    afterCreate w u s pre =
      { exitCode := 4, halt := .emptyKoe,
        events := pre ++ (processLines (if u = true then w.convertSjis else w.convertUtf8) 0 ""
          (split_lines (trim w.stdinText))).1 ++ [Ev.releaseCall],
        missingDiag := [], assembledKoe := "", wroteOutput := false } := by
  unfold afterCreate
  dsimp only
  rw [if_neg hin]
  simp only [hok]
  simp

theorem afterCreate_assembledKoe (w : World) (u : Bool) (s : Int) (pre : List Ev)
    (hin : trim w.stdinText ≠ "") (koeAll : String)
    (hok : (processLines (if u = true then w.convertSjis else w.convertUtf8) 0 ""
      (split_lines (trim w.stdinText))).2 = Except.ok koeAll) :
    (afterCreate w u s pre).assembledKoe = koeAll := by
  unfold afterCreate
  dsimp only
  rw [if_neg hin]
  simp only [hok]
  split_ifs <;> rfl

theorem afterCreate_synthe_mem (w : World) (u : Bool) (s : Int) (pre : List Ev) :
    ∀ ko sp, Ev.syntheCall ko sp ∈ (afterCreate w u s pre).events →
      Ev.syntheCall ko sp ∈ pre ∨ sp = s := by
  unfold afterCreate
  dsimp only
  generalize (if u = true then w.convertSjis else w.convertUtf8) = conv
  generalize (if u = true then w.synthe else w.syntheUtf8) = sfn
  have hproc : ∀ ko sp,
      Ev.syntheCall ko sp ∉ (processLines conv 0 "" (split_lines (trim w.stdinText))).1 := by
    intro ko sp hmem
    obtain ⟨j, str, hj⟩ := processLines_events conv _ 0 "" _ hmem
    exact absurd hj (by simp)
  intro ko sp
  repeat' split
  all_goals intro hmem
  all_goals simp only [List.mem_append, List.mem_singleton, List.mem_cons,
    List.not_mem_nil, or_false] at hmem
  all_goals casesm* _ ∨ _
  all_goals first
    | exact Or.inl (by assumption)
    | exact absurd (by assumption) (hproc ko sp)
    | simp_all

theorem afterCreate_ok_halt (w : World) (u : Bool) (s : Int) (pre : List Ev)
    (hin : trim w.stdinText ≠ "") (koeAll : String)
    (hok : (processLines (if u = true then w.convertSjis else w.convertUtf8) 0 ""
      (split_lines (trim w.stdinText))).2 = Except.ok koeAll)
    (hko : koeAll ≠ "") :
    (afterCreate w u s pre).halt = Halt.synthFail
      ∨ (afterCreate w u s pre).halt = Halt.writeFail
      ∨ (afterCreate w u s pre).halt = Halt.success := by
  unfold afterCreate
  dsimp only
  rw [if_neg hin]
  simp only [hok]
  rw [if_neg hko]
  split_ifs <;> simp

theorem runCore_wrote_eq (w : World) (u : Bool) (s : Int) (d k : String) :
    (runCore w u s d k).wroteOutput
      = decide ((runCore w u s d k).halt = Halt.success) := by
  unfold runCore afterCreate
  dsimp only
  repeat' split
  all_goals rfl

theorem runCore_synthe_speed (w : World) (u : Bool) (s : Int) (d k : String) :
    ∀ ko sp, Ev.syntheCall ko sp ∈ (runCore w u s d k).events → sp = s := by
  intro ko sp hmem
  unfold runCore at hmem
  repeat' split at hmem
  · simp at hmem
  · simp at hmem
  · simp at hmem
  · exact absurd hmem (preEvents_not_synthe d k ko sp)
  · rcases afterCreate_synthe_mem w u s (preEvents d k) ko sp hmem with hpre | hsp
    · exact absurd hpre (preEvents_not_synthe d k ko sp)
    · exact hsp

theorem trim_input_empty_of_lines (s : String)
    (h : ∀ l ∈ split_lines s, trim l = "") : trim s = "" := by
  rw [trim_eq_empty_iff]
  intro c hc
  by_cases hn : c = '\n'
  · simp [is_space, hn]
  · by_cases hr : c = '\r'
    · simp [is_space, hr]
    · obtain ⟨l, hl, hcl⟩ := splitLinesGo_mem_rest s.data [] [] c hc hn hr
      have := (trim_eq_empty_iff l).mp (h l hl)
      exact this c hcl

/-! ## Claims -/

/-- C7: the speed passed to Synthesize is the parsed speed clamped to
the interval from 50 to 300: 49 maps to 50, 301 maps to 300, every
value already inside the interval passes through unchanged, and every
synthesize call event of every run carries exactly the clamped
configured speed. -/
theorem C7_speed_clamped (w : World) (cfg : Config) :
    clampSpeed 49 = 50 ∧ clampSpeed 301 = 300
      ∧ (∀ s : Int, 50 ≤ s → s ≤ 300 → clampSpeed s = s)
      ∧ (∀ ko sp, Ev.syntheCall ko sp ∈ (runMain w cfg).events
          → sp = clampSpeed cfg.speed) := by
  refine ⟨by decide, by decide, ?_, ?_⟩
  · intro s hlo hhi
    unfold clampSpeed
    rw [if_neg (by omega), if_neg (by omega)]
  · intro ko sp hmem
    exact runCore_synthe_speed w (use_sjis cfg.encoding) (clampSpeed cfg.speed)
      cfg.devKey cfg.usrKey ko sp hmem

theorem C7_speed_clamped_witness :
    clampSpeed 100 = 100 ∧ (100 : Int) = clampSpeed okConfig.speed :=
  ⟨(C7_speed_clamped okWorld okConfig).2.2.1 100 (by decide) (by decide),
   (C7_speed_clamped okWorld okConfig).2.2.2 "ab/cd" 100 (by decide)⟩

/-- C9: the legacy encoding path is selected exactly by the three
strings sjis, shiftjis and cp932; every other encoding argument,
including the misspelling utf-8, silently selects the UTF-8 path and
the run is identical to one configured with utf8 — no encoding value is
rejected as a usage error. -/
theorem C9_encoding_selection (w : World) (cfg : Config) :
    (∀ e, use_sjis e = true ↔ (e = "sjis" ∨ e = "shiftjis" ∨ e = "cp932"))
      ∧ use_sjis "utf-8" = false
      ∧ (∀ e, use_sjis e = false →
          runMain w { cfg with encoding := e }
            = runMain w { cfg with encoding := "utf8" }) := by
  refine ⟨?_, by decide, ?_⟩
  · intro e
    unfold use_sjis
    simp [or_assoc]
  · intro e he
    unfold runMain
    simp only
    rw [he, show use_sjis "utf8" = false from rfl]

theorem C9_encoding_selection_witness :
    use_sjis "sjis" = true
      ∧ runMain okWorld { okConfig with encoding := "utf-8" }
          = runMain okWorld { okConfig with encoding := "utf8" } :=
  ⟨((C9_encoding_selection okWorld okConfig).1 "sjis").mpr (Or.inl rfl),
   (C9_encoding_selection okWorld okConfig).2.2 "utf-8" (by decide)⟩

/-- C10: split_lines always returns at least one element (empty input
gives one empty line), no returned element contains a line feed or a
carriage return, and carriage returns are removed wherever they occur
in the input, not only next to line feeds. -/
theorem C10_split_lines (s : String) :
    1 ≤ (split_lines s).length
      ∧ (∀ l ∈ split_lines s, '\n' ∉ l.data ∧ '\r' ∉ l.data)
      ∧ split_lines s = split_lines ⟨s.data.filter (fun c => c ≠ '\r')⟩ := by
  refine ⟨splitLinesGo_length s.data [] [], ?_, ?_⟩
  · intro l hl
    have h := splitLinesGo_no_crlf s.data [] []
      (by intro l0 hl0; exact absurd hl0 (List.not_mem_nil l0))
      (by intro c hc; exact absurd hc (List.not_mem_nil c)) l hl
    constructor
    · intro hmem; exact (h _ hmem).1 rfl
    · intro hmem; exact (h _ hmem).2 rfl
  · exact (splitLinesGo_filter_cr s.data [] []).symm

theorem C10_split_lines_witness :
    ('\n' ∉ ("ab" : String).data ∧ '\r' ∉ ("ab" : String).data)
      ∧ split_lines "a\rb\nc" = split_lines "ab\nc" :=
  ⟨(C10_split_lines "a\rb\nc").2.1 "ab" (by decide),
   ((C10_split_lines "a\rb\nc").2.2).trans
     (congrArg split_lines (by decide))⟩

/-- C8: each loader returns either a fully resolved capability set,
with every required entry point bound, or no result at all; and
whenever the library did load but the loader returns no result, the
library was unloaded (FreeLibrary called) before returning. -/
theorem C8_loader_all_or_nothing (wk wa : DllWorld) :
    (∀ api, (load_kanji2koe wk).1 = some api →
        api.Create = true ∧ api.Release = true ∧ api.ConvertUtf8 = true
          ∧ api.ConvertSjis = true ∧ api.SetDevKey = true)
      ∧ (wk.loadOk = true → (load_kanji2koe wk).1 = none →
          (load_kanji2koe wk).2 = true)
      ∧ (∀ api, (load_aquestalk wa).1 = some api →
          api.Synthe = true ∧ api.SyntheUtf8 = true ∧ api.FreeWave = true
            ∧ api.SetDevKey = true ∧ api.SetUsrKey = true)
      ∧ (wa.loadOk = true → (load_aquestalk wa).1 = none →
          (load_aquestalk wa).2 = true) := by
  refine ⟨?_, ?_, ?_, ?_⟩
  · intro api hapi
    unfold load_kanji2koe at hapi
    split at hapi
    · dsimp only at hapi
      split at hapi
      next hall =>
        simp only [Option.some.injEq] at hapi
        subst hapi
        simp only [Bool.and_eq_true] at hall
        exact ⟨hall.1.1.1.1, hall.1.1.1.2, hall.1.1.2, hall.1.2, hall.2⟩
      next => simp at hapi
    · simp at hapi
  · intro hl hnone
    unfold load_kanji2koe at hnone ⊢
    rw [if_pos hl] at hnone ⊢
    dsimp only at hnone ⊢
    split
    next hall => rw [if_pos hall] at hnone; simp at hnone
    next => rfl
  · intro api hapi
    unfold load_aquestalk at hapi
    split at hapi
    · dsimp only at hapi
      split at hapi
      next hall =>
        simp only [Option.some.injEq] at hapi
        subst hapi
        simp only [Bool.and_eq_true] at hall
        exact ⟨hall.1.1.1.1, hall.1.1.1.2, hall.1.1.2, hall.1.2, hall.2⟩
      next => simp at hapi
    · simp at hapi
  · intro hl hnone
    unfold load_aquestalk at hnone ⊢
    rw [if_pos hl] at hnone ⊢
    dsimp only at hnone ⊢
    split
    next hall => rw [if_pos hall] at hnone; simp at hnone
    next => rfl

theorem C8_loader_all_or_nothing_witness :
    ((AqKanji2KoeApi.mk true true true true true).Create = true
        ∧ (AqKanji2KoeApi.mk true true true true true).Release = true
        ∧ (AqKanji2KoeApi.mk true true true true true).ConvertUtf8 = true
        ∧ (AqKanji2KoeApi.mk true true true true true).ConvertSjis = true
        ∧ (AqKanji2KoeApi.mk true true true true true).SetDevKey = true)
      ∧ (load_kanji2koe ⟨true, fun s => s ≠ "AqKanji2Koe_SetDevKey"⟩).2 = true :=
  ⟨(C8_loader_all_or_nothing ⟨true, fun _ => true⟩ ⟨true, fun _ => true⟩).1
      (AqKanji2KoeApi.mk true true true true true) (by decide),
   (C8_loader_all_or_nothing ⟨true, fun s => s ≠ "AqKanji2Koe_SetDevKey"⟩
      ⟨true, fun _ => true⟩).2.1 rfl (by decide)⟩

/-- C4 counterexample: with the dictionary directory missing but both
libraries present, the run exits with status 2 yet the diagnostic is
not the list containing only the missing dictionary path — it also
lists the existing text-to-phoneme library path. -/
theorem C4_counterexample :
    (runMain missingDicWorld okConfig).exitCode = 2
      ∧ missingDicWorld.k2kDllExists = true
      ∧ PathId.k2kDll ∈ (runMain missingDicWorld okConfig).missingDiag
      ∧ (runMain missingDicWorld okConfig).missingDiag ≠ [PathId.k2kDic] := by decide

/-- C4 amended: if any of the three required component paths does not
exist, the program halts with the configuration-error status 2, no
library load is attempted (no foreign call at all is made) and no
output is written — but the diagnostic lists all three required paths,
existing ones included, not only the missing ones. -/
theorem C4_missing_sdk (w : World) (cfg : Config)
    (hmiss : (w.k2kDllExists && w.k2kDicExists && w.tkDllExists) = false) :
    (runMain w cfg).exitCode = 2
      ∧ (runMain w cfg).halt = Halt.missingSdk
      ∧ (runMain w cfg).events = []
      ∧ (runMain w cfg).missingDiag = [PathId.k2kDll, PathId.k2kDic, PathId.tkDll]
      ∧ (runMain w cfg).wroteOutput = false := by
  unfold runMain
  rw [runCore_missingSdk w (use_sjis cfg.encoding) (clampSpeed cfg.speed)
    cfg.devKey cfg.usrKey hmiss]
  exact ⟨rfl, rfl, rfl, rfl, rfl⟩

theorem C4_missing_sdk_witness :
    (runMain missingDicWorld okConfig).events = []
      ∧ (runMain missingDicWorld okConfig).missingDiag
          = [PathId.k2kDll, PathId.k2kDic, PathId.tkDll] :=
  ⟨(C4_missing_sdk missingDicWorld okConfig (by decide)).2.2.1,
   (C4_missing_sdk missingDicWorld okConfig (by decide)).2.2.2.1⟩

/-- C2 counterexample: with empty standard input the run does exit
with status 2, but the text-to-phoneme Create call has already been
made before that halt — stdin is read only after Create succeeds. -/
theorem C2_counterexample :
    (runMain emptyStdinWorld okConfig).exitCode = 2
      ∧ Ev.createCall ∈ (runMain emptyStdinWorld okConfig).events := by decide

/-- C2 amended: for every run with the SDK paths present, both loads
succeeding and session creation succeeding, whose standard input is
empty after trimming, the pipeline halts with the no-input status and
exit code 2 and writes no output — but only after the Create call has
been made (stdin is read after session creation), and the session is
released exactly once before the halt. -/
theorem C2_no_input (w : World) (cfg : Config)
    (h1 : w.k2kDllExists = true) (h2 : w.k2kDicExists = true) (h3 : w.tkDllExists = true)
    (h4 : w.k2kLoadOk = true) (h5 : w.tkLoadOk = true) (h6 : w.createOk = true)
    (hin : trim w.stdinText = "") :
    (runMain w cfg).exitCode = 2
      ∧ (runMain w cfg).halt = Halt.noInput
      ∧ Ev.createCall ∈ (runMain w cfg).events
      ∧ (runMain w cfg).events.count Ev.releaseCall = 1
      ∧ (runMain w cfg).wroteOutput = false := by
  unfold runMain
  rw [runCore_reach w _ _ _ _ h1 h2 h3 h4 h5 h6, afterCreate_noInput _ _ _ _ hin]
  refine ⟨rfl, rfl, ?_, ?_, rfl⟩
  · exact List.mem_append.mpr (Or.inl (preEvents_mem_create _ _))
  · rw [List.count_append, List.count_eq_zero.mpr (preEvents_not_release _ _)]
    rfl

theorem C2_no_input_witness :
    (runMain emptyStdinWorld okConfig).halt = Halt.noInput
      ∧ (runMain emptyStdinWorld okConfig).events.count Ev.releaseCall = 1 :=
  ⟨(C2_no_input emptyStdinWorld okConfig rfl rfl rfl rfl rfl rfl (by decide)).2.1,
   (C2_no_input emptyStdinWorld okConfig rfl rfl rfl rfl rfl rfl (by decide)).2.2.2.1⟩

/-- C1 counterexample: on input consisting only of whitespace lines,
the run does not halt at the empty-conversion-result site at all (it
halts at the earlier no-input check); and a run that does reach the
empty-conversion-result site exits with status 4, not 2. -/
theorem C1_counterexample :
    ¬ ((runMain blankWorld okConfig).halt = Halt.emptyKoe
        ∧ (runMain blankWorld okConfig).exitCode = 2)
      ∧ (runMain emptyConvWorld okConfig).halt = Halt.emptyKoe
      ∧ (runMain emptyConvWorld okConfig).exitCode = 4 := by decide

/-- C1 amended: if every input line is blank or whitespace-only (with
the SDK paths present, loads and session creation succeeding), the
program halts with exit status 2 and writes no output file — but at the
earlier no-input check, before any line is processed, not at the
empty-conversion-result case; the empty-conversion-result case, reached
only when some input survives trimming yet every conversion result
trims to empty, exits with status 4, not 2. -/
theorem C1_blank_input (w : World) (cfg : Config)
    (h1 : w.k2kDllExists = true) (h2 : w.k2kDicExists = true) (h3 : w.tkDllExists = true)
    (h4 : w.k2kLoadOk = true) (h5 : w.tkLoadOk = true) (h6 : w.createOk = true)
    (hlines : ∀ l ∈ split_lines w.stdinText, trim l = "") :
    (runMain w cfg).exitCode = 2
      ∧ (runMain w cfg).halt = Halt.noInput
      ∧ (runMain w cfg).wroteOutput = false
      ∧ (∀ (v : World) (cfg2 : Config), (runMain v cfg2).halt = Halt.emptyKoe
          → (runMain v cfg2).exitCode = 4) := by
  have hin : trim w.stdinText = "" := trim_input_empty_of_lines _ hlines
  refine ⟨?_, ?_, ?_, ?_⟩
  · unfold runMain
    rw [runCore_reach w _ _ _ _ h1 h2 h3 h4 h5 h6, afterCreate_noInput _ _ _ _ hin]
  · unfold runMain
    rw [runCore_reach w _ _ _ _ h1 h2 h3 h4 h5 h6, afterCreate_noInput _ _ _ _ hin]
  · unfold runMain
    rw [runCore_reach w _ _ _ _ h1 h2 h3 h4 h5 h6, afterCreate_noInput _ _ _ _ hin]
  · intro v cfg2 hh
    unfold runMain at hh ⊢
    rw [runCore_exit_eq, hh]
    rfl

theorem C1_blank_input_witness :
    (runMain blankWorld okConfig).exitCode = 2
      ∧ (runMain emptyConvWorld okConfig).exitCode = 4 :=
  ⟨(C1_blank_input blankWorld okConfig rfl rfl rfl rfl rfl rfl (by decide)).1,
   (C1_blank_input blankWorld okConfig rfl rfl rfl rfl rfl rfl
      (by decide)).2.2.2 emptyConvWorld okConfig (by decide)⟩

/-- C3: evaluation of the driver at the failing input: the synthesizer
returns a non-null wave pointer with size zero, the run halts at the
synthesis-failure site with exit code 5, a synthesize call was made,
and the wave release call is never made — the non-null buffer is
leaked, contrary to the specified release discipline. -/
theorem C3_leak_on_nonpositive_size :
    (zeroSizeWorld.syntheUtf8 (runMain zeroSizeWorld okConfig).assembledKoe
        (clampSpeed okConfig.speed)).1 = true
      ∧ (runMain zeroSizeWorld okConfig).halt = Halt.synthFail
      ∧ (runMain zeroSizeWorld okConfig).exitCode = 5
      ∧ Ev.syntheCall "ab/cd" 100 ∈ (runMain zeroSizeWorld okConfig).events
      ∧ (runMain zeroSizeWorld okConfig).events.count Ev.freeWaveCall = 0 := by decide

/-- C6: on every exit path reached after a successful Create — the
empty-input halt, a per-line conversion failure, the empty assembled
stream, synthesis or write failure, and full success — the session
release call happens exactly once; and when the run halts at the
conversion-failure site it exits with code 4, writes no output, and no
synthesize call ever occurred. -/
theorem C6_release_once (w : World) (cfg : Config)
    (h1 : w.k2kDllExists = true) (h2 : w.k2kDicExists = true) (h3 : w.tkDllExists = true)
    (h4 : w.k2kLoadOk = true) (h5 : w.tkLoadOk = true) (h6 : w.createOk = true) :
    (runMain w cfg).events.count Ev.releaseCall = 1
      ∧ ((runMain w cfg).halt = Halt.convertFail →
          (runMain w cfg).exitCode = 4
            ∧ (runMain w cfg).wroteOutput = false
            ∧ ∀ ko sp, Ev.syntheCall ko sp ∉ (runMain w cfg).events) := by
  unfold runMain
  have hreach := runCore_reach w (use_sjis cfg.encoding) (clampSpeed cfg.speed)
    cfg.devKey cfg.usrKey h1 h2 h3 h4 h5 h6
  constructor
  · rw [hreach, afterCreate_count_release,
      List.count_eq_zero.mpr (preEvents_not_release _ _)]
  · intro hcf
    refine ⟨?_, ?_, ?_⟩
    · rw [runCore_exit_eq, hcf]
      rfl
    · rw [runCore_wrote_eq, hcf]
      rfl
    · intro ko sp hmem
      rw [hreach] at hcf hmem
      by_cases hin : trim w.stdinText = ""
      · rw [afterCreate_noInput _ _ _ _ hin] at hcf
        simp at hcf
      · cases hres2 : (processLines
            (if use_sjis cfg.encoding = true then w.convertSjis else w.convertUtf8) 0 ""
            (split_lines (trim w.stdinText))).2 with
        | error rc =>
          rw [afterCreate_convertFail _ _ _ _ hin rc hres2] at hmem
          simp only [List.mem_append] at hmem
          rcases hmem with (hp | hp) | hp
          · exact absurd hp (preEvents_not_synthe _ _ _ _)
          · obtain ⟨j, str, hj⟩ := processLines_events _ _ 0 "" _ hp
            exact absurd hj (by simp)
          · simp at hp
        | ok koeAll =>
          by_cases hko : koeAll = ""
          · subst hko
            rw [afterCreate_emptyKoe _ _ _ _ hin hres2] at hcf
            simp at hcf
          · rcases afterCreate_ok_halt w _ _ _ hin koeAll hres2 hko with h | h | h <;>
              (rw [hcf] at h; simp at h)

theorem C6_release_once_witness :
    (runMain convFailWorld okConfig).events.count Ev.releaseCall = 1
      ∧ (runMain convFailWorld okConfig).exitCode = 4
      ∧ Ev.syntheCall "ab" 100 ∉ (runMain convFailWorld okConfig).events :=
  ⟨(C6_release_once convFailWorld okConfig rfl rfl rfl rfl rfl rfl).1,
   ((C6_release_once convFailWorld okConfig rfl rfl rfl rfl rfl rfl).2 (by decide)).1,
   ((C6_release_once convFailWorld okConfig rfl rfl rfl rfl rfl rfl).2
      (by decide)).2.2 "ab" 100⟩

/-- C5: when every conversion call succeeds and line processing keeps
k at least 1 non-empty converted parts, the assembled phoneme stream is
exactly those parts joined by single slash separators — no leading,
trailing or doubled separator can occur since every kept part is
non-empty — and, when no part itself contains a slash, the stream holds
exactly k minus 1 slash characters. -/
theorem C5_join_parts (w : World) (cfg : Config)
    (h1 : w.k2kDllExists = true) (h2 : w.k2kDicExists = true) (h3 : w.tkDllExists = true)
    (h4 : w.k2kLoadOk = true) (h5 : w.tkLoadOk = true) (h6 : w.createOk = true)
    (hin : trim w.stdinText ≠ "")
    (conv : Nat → String → Int × String)
    (hconv : conv = if use_sjis cfg.encoding = true then w.convertSjis else w.convertUtf8)
    (hok : ∀ i l, (conv i l).1 = 0)
    (parts : List String)
    (hparts : parts = convertedParts conv 0 (split_lines (trim w.stdinText)))
    (hk : parts ≠ []) :
    (runMain w cfg).assembledKoe = joinSlash parts
      ∧ (∀ p ∈ parts, p ≠ "")
      ∧ ((∀ p ∈ parts, countSlash p = 0) →
          countSlash (runMain w cfg).assembledKoe = parts.length - 1) := by
  subst hconv
  have hpne : ∀ p ∈ parts, p ≠ "" := by
    rw [hparts]
    exact convertedParts_ne_empty _ _ 0
  have hres : (processLines
      (if use_sjis cfg.encoding = true then w.convertSjis else w.convertUtf8) 0 ""
      (split_lines (trim w.stdinText))).2 = Except.ok (joinSlash parts) := by
    rw [processLines_ok _ hok _ 0 "", ← hparts, foldl_join_empty_start parts hpne]
  have hkoe : (runMain w cfg).assembledKoe = joinSlash parts := by
    unfold runMain
    rw [runCore_reach w _ _ _ _ h1 h2 h3 h4 h5 h6]
    exact afterCreate_assembledKoe w _ _ _ hin (joinSlash parts) hres
  refine ⟨hkoe, hpne, ?_⟩
  intro hns
  rw [hkoe]
  cases parts with
  | nil => exact absurd rfl hk
  | cons p ps =>
    rw [countSlash_joinSlash p ps hns]
    simp

theorem C5_join_parts_witness :
    (runMain okWorld okConfig).assembledKoe = joinSlash ["ab", "cd"]
      ∧ countSlash (runMain okWorld okConfig).assembledKoe = 1 := by
  have h := C5_join_parts okWorld okConfig rfl rfl rfl rfl rfl rfl (by decide)
    (if use_sjis okConfig.encoding = true then okWorld.convertSjis else okWorld.convertUtf8)
    rfl (fun _ _ => rfl) ["ab", "cd"] (by decide) (by decide)
  exact ⟨h.1, by simpa using h.2.2 (by decide)⟩

end AqTts

example : AqTts.trim "  ab c\r\n" = "ab c" := by decide
example : AqTts.split_lines "a\r\nb\nc" = ["a", "b", "c"] := by decide
example : AqTts.split_lines "" = [""] := by decide
example : AqTts.clampSpeed 49 = 50 := by decide
example : AqTts.use_sjis "utf-8" = false := by decide
example : (AqTts.load_kanji2koe ⟨true, fun _ => true⟩).2 = false := by decide
example : (AqTts.load_kanji2koe ⟨true, fun s => s ≠ "AqKanji2Koe_SetDevKey"⟩).2 = true := by decide

example :
    (AqTts.runMain
      { k2kDllExists := true, k2kDicExists := true, tkDllExists := true
        k2kLoadOk := true, tkLoadOk := true, createOk := true
        stdinText := "ab\n\ncd"
        convertUtf8 := fun _ l => (0, l), convertSjis := fun _ l => (0, l)
        synthe := fun _ _ => (true, 10), syntheUtf8 := fun _ _ => (true, 10)
        writeOk := true }
      { encoding := "utf8", speed := 100, devKey := "", usrKey := "" }).assembledKoe
      = "ab/cd" := by decide

example :
    (AqTts.runMain
      { k2kDllExists := true, k2kDicExists := true, tkDllExists := true
        k2kLoadOk := true, tkLoadOk := true, createOk := true
        stdinText := " \n\t\n"
        convertUtf8 := fun _ l => (0, l), convertSjis := fun _ l => (0, l)
        synthe := fun _ _ => (true, 10), syntheUtf8 := fun _ _ => (true, 10)
        writeOk := true }
      { encoding := "utf8", speed := 100, devKey := "", usrKey := "" }).halt
      = AqTts.Halt.noInput := by decide
